import Mathlib

/-!
Verification of the statement-matcher dispatch layer of the GNU Fortran
front end, as declared by `gcc/fortran/match.h`.

The repository fragment supplies only the public header: the recognizer
implementations (`match.c`, `parse.c`, `openmp.c`, `decl.c`) are not part
of the corpus.  The header is embedded directly (the declaration table
`matchDecls` below); the behaviour of the recognizers, the combinator
kernel and the dispatcher is modelled from the specification's own
description of the match-outcome protocol.
-/

namespace GfcMatch

/-- Modelled from the spec: the three-valued match outcome `{Yes, No, Error}`
returned by every recognizer (`match` in match.h). -/
inductive Outcome where
  | yes
  | no
  | error
deriving DecidableEq

/-- Modelled from the spec: identities of the three matcher mode flags
`gfc_matching_ptr_assignment`, `gfc_matching_procptr_assignment` and
`gfc_matching_prefix` declared in match.h lines 33-35. -/
inductive FlagId where
  | ptrAssign
  | procPtrAssign
  | prefixFlag
deriving DecidableEq

/-- Modelled from the spec: a produced statement record; only the `label`
field matters for the claims (label attachment). -/
structure Stmt where
  label : Nat := 0
deriving DecidableEq

/-- Modelled from the spec: the shared matcher state: the speculative
cursor over the logical character stream of one statement, the
`gfc_statement_label` slot (zero means no label), the `gfc_new_block`
slot, the block stack, the three mode flags, the out-parameter slots
written so far, the emitted AST nodes, the diagnostic count, the
statement record under construction (`new_st`), and the two
directive-language toggles. -/
structure PState where
  cursor : List Char := []
  label : Nat := 0
  newBlock : Option String := none
  blocks : List String := []
  ptrAssign : Bool := false
  procPtrAssign : Bool := false
  prefixFlag : Bool := false
  outs : List String := []
  ast : List Stmt := []
  diags : Nat := 0
  newSt : Stmt := {}
  flagOpenmp : Bool := true
  flagOpenacc : Bool := true
deriving DecidableEq

/-- Horizontal whitespace (blank or tab). -/
def isHSpace (c : Char) : Bool := c = ' ' || c = '\t'

/-- A Fortran name continuation character: letter, digit or underscore. -/
def isNameChar (c : Char) : Bool := c.isAlphanum || c = '_'

/-- Skip the run of horizontal whitespace at the cursor. -/
def skipSpace (s : PState) : PState :=
  { s with cursor := s.cursor.dropWhile isHSpace }

/-- Modelled from the spec: error recovery -- emit a diagnostic and skip
to the logical end of statement. -/
def recover (s : PState) : PState :=
  { s with cursor := [], diags := s.diags + 1 }

/-- Read one of the three mode flags. -/
def getFlag : FlagId → PState → Bool
  | .ptrAssign, s => s.ptrAssign
  | .procPtrAssign, s => s.procPtrAssign
  | .prefixFlag, s => s.prefixFlag

/-- Write one of the three mode flags. -/
def setFlag : FlagId → Bool → PState → PState
  | .ptrAssign, v, s => { s with ptrAssign := v }
  | .procPtrAssign, v, s => { s with procPtrAssign := v }
  | .prefixFlag, v, s => { s with prefixFlag := v }

/-- Modelled from the spec: the recognizer language.  A recognizer is
built from the lexical primitives (section 4.B), the pattern-kernel
directives (section 4.D) and the combinators sequence, ordered choice,
optional and commit (section 4.C); recognizers that open a named
construct set the `newBlock` slot, and the pointer-assignment and
prefix recognizers scope a mode flag around a sub-match (section 4.G). -/
inductive Pat where
  | lit (ch : Char)
  | space
  | name
  | eos
  | commit
  | openBlock (b : String)
  | withFlag (f : FlagId) (v : Bool) (p : Pat)
  | opt (p : Pat)
  | seq (p q : Pat)
  | choice (p q : Pat)

/-- Modelled from the spec: run a recognizer.  Returns the outcome, a
flag recording whether a commit point was passed on the executed path,
and the resulting state.  `No` restores the entry state; a failure after
a commit becomes `Error` with a diagnostic and recovery to end of
statement; a recognizer that scopes a mode flag restores the prior value
on every path. -/
def runP : Pat → PState → Outcome × Bool × PState
  | .lit ch, s =>
    match (skipSpace s).cursor with
    | [] => (.no, false, s)
    | c :: rest =>
      if c.toLower = ch.toLower then
        (.yes, false, { skipSpace s with cursor := rest })
      else (.no, false, s)
  | .space, s => (.yes, false, skipSpace s)
  | .name, s =>
    match (skipSpace s).cursor with
    | [] => (.no, false, s)
    | c :: rest =>
      if c.isAlpha then
        (.yes, false, { skipSpace s with
                        cursor := rest.dropWhile isNameChar,
                        outs := String.mk (c :: rest.takeWhile isNameChar) :: s.outs })
      else (.no, false, s)
  | .eos, s =>
    if (skipSpace s).cursor = [] then (.yes, false, s) else (.no, false, s)
  | .commit, s => (.yes, true, s)
  | .openBlock b, s => (.yes, false, { s with newBlock := some b })
  | .withFlag f v p, s =>
    match runP p (setFlag f v s) with
    | (o, c, s1) => (o, c, setFlag f (getFlag f s) s1)
  | .opt p, s =>
    match runP p s with
    | (.no, _, _) => (.yes, false, s)
    | r => r
  | .seq p q, s =>
    match runP p s with
    | (.no, _, _) => (.no, false, s)
    | (.error, c, s1) => (.error, c, s1)
    | (.yes, c1, s1) =>
      match runP q s1 with
      | (.no, _, _) => if c1 then (.error, true, recover s1) else (.no, false, s)
      | (.error, c2, s2) => (.error, c1 || c2, s2)
      | (.yes, c2, s2) => (.yes, c1 || c2, s2)
  | .choice p q, s =>
    match runP p s with
    | (.no, _, _) => runP q s
    | r => r

/-- Modelled from the spec: the sequence combinator over a list of
sub-matchers, threading the entry checkpoint and the commit flag.
On the first `No`: if a commit has been passed, emit a diagnostic and
recover (`Error`); otherwise restore the entry checkpoint and return
`No`.  `Error` propagates; all-`Yes` returns `Yes`. -/
def runSeqList : List Pat → PState → Bool → PState → Outcome × Bool × PState
  | [], _, committed, s => (.yes, committed, s)
  | p :: rest, entry, committed, s =>
    match runP p s with
    | (.no, _, _) =>
      if committed then (.error, true, recover s) else (.no, false, entry)
    | (.error, c, s1) => (.error, committed || c, s1)
    | (.yes, c, s1) => runSeqList rest entry (committed || c) s1

/-- Modelled from the spec: the sequence combinator started at its entry
checkpoint with no commit passed. -/
def seqList (ps : List Pat) (s : PState) : Outcome × Bool × PState :=
  runSeqList ps s false s

/-- Modelled from the spec: ordered choice over a list of alternatives:
try them in listed order from the same entry state; the first
alternative that does not return `No` wins (so `Error` short-circuits);
if all return `No`, return `No` with the entry state. -/
def runChoice : List Pat → PState → Outcome × Bool × PState
  | [], s => (.no, false, s)
  | p :: rest, s =>
    if (runP p s).1 = .no then runChoice rest s else runP p s

/-- The digit run (at most five digits) in label position. -/
def labelDigits (l : List Char) : List Char :=
  (l.takeWhile Char.isDigit).take 5

/-- The numeric value of the digit run in label position (zero when
there are no digits or the digits spell zero, which is not a valid
statement label). -/
def labelVal (l : List Char) : Nat :=
  (labelDigits l).foldl (fun a c => a * 10 + (c.toNat - 48)) 0

/-- Modelled from the spec: the dispatcher's optional leading
statement-label match -- on a valid (nonzero) label, consume the digits
and following whitespace and fill the `gfc_statement_label` slot. -/
def takeLabel (s : PState) : PState :=
  if labelVal s.cursor = 0 then s
  else { s with
         cursor := (s.cursor.drop (labelDigits s.cursor).length).dropWhile isHSpace,
         label := labelVal s.cursor }

/-- Modelled from the spec: wiping of the statement record under
construction (`new_st`) during backtracking; the statement-label slot is
kept outside that record precisely so that it survives this. -/
def wipeNewSt (s : PState) : PState :=
  { s with newSt := {} }

/-- Modelled from the spec: the statement dispatcher (section 4.F).
Match an optional leading label, try the context's candidate list in
order; on `Yes`, attach the label slot to the produced statement, clear
the slot, push the `newBlock` slot (if set) onto the block stack and
clear it, and emit the statement; on `Error`, recover as-is; on all-`No`,
restore the entry checkpoint, emit an unclassifiable-statement
diagnostic and skip to end of statement. -/
def dispatch (cands : List Pat) (s : PState) : Outcome × Option Stmt × PState :=
  match runChoice cands (takeLabel s) with
  | (.yes, _, s2) =>
    (.yes, some { label := s2.label },
     { s2 with
       label := 0,
       newBlock := none,
       blocks := (match s2.newBlock with
                  | some b => b :: s2.blocks
                  | none => s2.blocks),
       ast := { label := s2.label } :: s2.ast })
  | (.error, _, s2) => (.error, none, s2)
  | (.no, _, _) => (.no, none, { s with cursor := [], diags := s.diags + 1 })

/-- The two directive spelling families. -/
inductive DirLang where
  | omp
  | acc
deriving DecidableEq

/-- Whether a directive family's language toggle is enabled. -/
def langEnabled : DirLang → PState → Bool
  | .omp, s => s.flagOpenmp
  | .acc, s => s.flagOpenacc

/-- Modelled from the spec: the directive dispatcher -- when the
family's language toggle is disabled it returns `No` unconditionally,
without consuming input, committing or emitting a diagnostic; otherwise
it dispatches over the directive candidate list. -/
def dispatchDirective (lang : DirLang) (cands : List Pat) (s : PState) :
    Outcome × Bool × PState :=
  if langEnabled lang s then runChoice cands s else (.no, false, s)

/-- Parameter types appearing in the `match`-returning declarations of
gcc/fortran/match.h. -/
inductive CType where
  | gfcCharPtr
  | intPtr
  | stLabelPP
  | charPtr
  | constCharPP
  | symbolPP
  | symtreePP
  | intrinsicOpPtr
  | cChar
  | constCharPtr
  | varargs
  | iteratorPtr
  | cInt
  | typespecPtr
  | symbolPtr
  | stmtPtr
  | cBool
  | exprPP
  | symbolAttrPtr
  | actualArglistPP
  | arraySpecPP
  | arraySpecPtr
  | arrayRefPtr
  | interfaceTypePtr
deriving DecidableEq

/-- The `match`-returning declarations of gcc/fortran/match.h, in header
order: each entry is the function name and its parameter type list
(`stmtPtr` stands for `gfc_statement *`). -/
def matchDecls : List (String × List CType) := [
  ("gfc_match_special_char", [.gfcCharPtr]),
  ("gfc_match_space", []),
  ("gfc_match_eos", []),
  ("gfc_match_small_literal_int", [.intPtr, .intPtr]),
  ("gfc_match_st_label", [.stLabelPP]),
  ("gfc_match_label", []),
  ("gfc_match_small_int", [.intPtr]),
  ("gfc_match_small_int_expr", [.intPtr, .exprPP]),
  ("gfc_match_name", [.charPtr]),
  ("gfc_match_name_C", [.constCharPP]),
  ("gfc_match_symbol", [.symbolPP, .cInt]),
  ("gfc_match_sym_tree", [.symtreePP, .cInt]),
  ("gfc_match_intrinsic_op", [.intrinsicOpPtr]),
  ("gfc_match_char", [.cChar]),
  ("gfc_match", [.constCharPtr, .varargs]),
  ("gfc_match_iterator", [.iteratorPtr, .cInt]),
  ("gfc_match_parens", []),
  ("gfc_match_type_spec", [.typespecPtr]),
  ("gfc_match_member_sep", [.symbolPtr]),
  ("gfc_match_program", []),
  ("gfc_match_pointer_assignment", []),
  ("gfc_match_assignment", []),
  ("gfc_match_if", [.stmtPtr]),
  ("gfc_match_else", []),
  ("gfc_match_elseif", []),
  ("gfc_match_event_post", []),
  ("gfc_match_event_wait", []),
  ("gfc_match_critical", []),
  ("gfc_match_block", []),
  ("gfc_match_associate", []),
  ("gfc_match_do", []),
  ("gfc_match_cycle", []),
  ("gfc_match_exit", []),
  ("gfc_match_lock", []),
  ("gfc_match_pause", []),
  ("gfc_match_stop", []),
  ("gfc_match_error_stop", []),
  ("gfc_match_continue", []),
  ("gfc_match_assign", []),
  ("gfc_match_goto", []),
  ("gfc_match_sync_all", []),
  ("gfc_match_sync_images", []),
  ("gfc_match_sync_memory", []),
  ("gfc_match_unlock", []),
  ("gfc_match_allocate", []),
  ("gfc_match_nullify", []),
  ("gfc_match_deallocate", []),
  ("gfc_match_return", []),
  ("gfc_match_call", []),
  ("match_common_name", [.charPtr]),
  ("gfc_match_common", []),
  ("gfc_match_block_data", []),
  ("gfc_match_namelist", []),
  ("gfc_match_module", []),
  ("gfc_match_equivalence", []),
  ("gfc_match_st_function", []),
  ("gfc_match_ptr_fcn_assign", []),
  ("gfc_match_case", []),
  ("gfc_match_select", []),
  ("gfc_match_select_type", []),
  ("gfc_match_type_is", []),
  ("gfc_match_class_is", []),
  ("gfc_match_where", [.stmtPtr]),
  ("gfc_match_elsewhere", []),
  ("gfc_match_forall", [.stmtPtr]),
  ("gfc_match_oacc_atomic", []),
  ("gfc_match_oacc_cache", []),
  ("gfc_match_oacc_wait", []),
  ("gfc_match_oacc_update", []),
  ("gfc_match_oacc_declare", []),
  ("gfc_match_oacc_loop", []),
  ("gfc_match_oacc_host_data", []),
  ("gfc_match_oacc_data", []),
  ("gfc_match_oacc_kernels", []),
  ("gfc_match_oacc_kernels_loop", []),
  ("gfc_match_oacc_parallel", []),
  ("gfc_match_oacc_parallel_loop", []),
  ("gfc_match_oacc_enter_data", []),
  ("gfc_match_oacc_exit_data", []),
  ("gfc_match_oacc_routine", []),
  ("gfc_match_omp_eos", []),
  ("gfc_match_omp_atomic", []),
  ("gfc_match_omp_barrier", []),
  ("gfc_match_omp_cancel", []),
  ("gfc_match_omp_cancellation_point", []),
  ("gfc_match_omp_critical", []),
  ("gfc_match_omp_declare_reduction", []),
  ("gfc_match_omp_declare_simd", []),
  ("gfc_match_omp_declare_target", []),
  ("gfc_match_omp_distribute", []),
  ("gfc_match_omp_distribute_parallel_do", []),
  ("gfc_match_omp_distribute_parallel_do_simd", []),
  ("gfc_match_omp_distribute_simd", []),
  ("gfc_match_omp_do", []),
  ("gfc_match_omp_do_simd", []),
  ("gfc_match_omp_flush", []),
  ("gfc_match_omp_master", []),
  ("gfc_match_omp_ordered", []),
  ("gfc_match_omp_parallel", []),
  ("gfc_match_omp_parallel_do", []),
  ("gfc_match_omp_parallel_do_simd", []),
  ("gfc_match_omp_parallel_sections", []),
  ("gfc_match_omp_parallel_workshare", []),
  ("gfc_match_omp_sections", []),
  ("gfc_match_omp_simd", []),
  ("gfc_match_omp_single", []),
  ("gfc_match_omp_target", []),
  ("gfc_match_omp_target_data", []),
  ("gfc_match_omp_target_teams", []),
  ("gfc_match_omp_target_teams_distribute", []),
  ("gfc_match_omp_target_teams_distribute_parallel_do", []),
  ("gfc_match_omp_target_teams_distribute_parallel_do_simd", []),
  ("gfc_match_omp_target_teams_distribute_simd", []),
  ("gfc_match_omp_target_update", []),
  ("gfc_match_omp_task", []),
  ("gfc_match_omp_taskgroup", []),
  ("gfc_match_omp_taskwait", []),
  ("gfc_match_omp_taskyield", []),
  ("gfc_match_omp_teams", []),
  ("gfc_match_omp_teams_distribute", []),
  ("gfc_match_omp_teams_distribute_parallel_do", []),
  ("gfc_match_omp_teams_distribute_parallel_do_simd", []),
  ("gfc_match_omp_teams_distribute_simd", []),
  ("gfc_match_omp_threadprivate", []),
  ("gfc_match_omp_workshare", []),
  ("gfc_match_omp_end_nowait", []),
  ("gfc_match_omp_end_single", []),
  ("gfc_match_data", []),
  ("gfc_match_null", [.exprPP]),
  ("gfc_match_kind_spec", [.typespecPtr, .cBool]),
  ("gfc_match_old_kind_spec", [.typespecPtr]),
  ("gfc_match_decl_type_spec", [.typespecPtr, .cInt]),
  ("gfc_match_end", [.stmtPtr]),
  ("gfc_match_data_decl", []),
  ("gfc_match_formal_arglist", [.symbolPtr, .cInt, .cInt]),
  ("gfc_match_procedure", []),
  ("gfc_match_generic", []),
  ("gfc_match_function_decl", []),
  ("gfc_match_entry", []),
  ("gfc_match_subroutine", []),
  ("gfc_match_submod_proc", []),
  ("gfc_match_map", []),
  ("gfc_match_union", []),
  ("gfc_match_structure_decl", []),
  ("gfc_match_derived_decl", []),
  ("gfc_match_final_decl", []),
  ("gfc_match_implicit_none", []),
  ("gfc_match_implicit", []),
  ("gfc_match_allocatable", []),
  ("gfc_match_asynchronous", []),
  ("gfc_match_automatic", []),
  ("gfc_match_codimension", []),
  ("gfc_match_contiguous", []),
  ("gfc_match_dimension", []),
  ("gfc_match_external", []),
  ("gfc_match_gcc_attributes", []),
  ("gfc_match_import", []),
  ("gfc_match_intent", []),
  ("gfc_match_intrinsic", []),
  ("gfc_match_optional", []),
  ("gfc_match_parameter", []),
  ("gfc_match_pointer", []),
  ("gfc_match_protected", []),
  ("gfc_match_private", [.stmtPtr]),
  ("gfc_match_public", [.stmtPtr]),
  ("gfc_match_save", []),
  ("gfc_match_static", []),
  ("gfc_match_modproc", []),
  ("gfc_match_target", []),
  ("gfc_match_value", []),
  ("gfc_match_volatile", []),
  ("gfc_match_bind_c_stmt", []),
  ("gfc_match_suffix", [.symbolPtr, .symbolPP]),
  ("gfc_match_bind_c", [.symbolPtr, .cBool]),
  ("gfc_get_type_attr_spec", [.symbolAttrPtr, .charPtr]),
  ("gfc_match_structure_constructor", [.symbolPtr, .exprPP]),
  ("gfc_match_variable", [.exprPP, .cInt]),
  ("gfc_match_equiv_variable", [.exprPP]),
  ("gfc_match_actual_arglist", [.cInt, .actualArglistPP]),
  ("gfc_match_literal_constant", [.exprPP, .cInt]),
  ("gfc_match_init_expr", [.exprPP]),
  ("gfc_match_array_spec", [.arraySpecPP, .cBool, .cBool]),
  ("gfc_match_array_ref", [.arrayRefPtr, .arraySpecPtr, .cInt, .cInt]),
  ("gfc_match_array_constructor", [.exprPP]),
  ("gfc_match_abstract_interface", []),
  ("gfc_match_generic_spec", [.interfaceTypePtr, .charPtr, .intrinsicOpPtr]),
  ("gfc_match_interface", []),
  ("gfc_match_end_interface", []),
  ("gfc_match_format", []),
  ("gfc_match_open", []),
  ("gfc_match_close", []),
  ("gfc_match_endfile", []),
  ("gfc_match_backspace", []),
  ("gfc_match_rewind", []),
  ("gfc_match_flush", []),
  ("gfc_match_inquire", []),
  ("gfc_match_read", []),
  ("gfc_match_wait", []),
  ("gfc_match_write", []),
  ("gfc_match_print", []),
  ("gfc_match_defined_op_name", [.charPtr, .cInt]),
  ("gfc_match_expr", [.exprPP]),
  ("gfc_match_use", []),
  ("gfc_match_submodule", [])]

/-- A concrete demonstration state whose cursor holds the single letter q. -/
def demoQ : PState := { cursor := ['q'] }

/-- A concrete demonstration state: a blank then the letter x. -/
def demoSpaceX : PState := { cursor := [' ', 'x'] }

/-- A concrete demonstration state for dispatch: the label 100, a blank,
then the letter x. -/
def demoLabeled : PState := { cursor := ['1', '0', '0', ' ', 'x'] }

/-- A concrete directive state with OpenMP recognition disabled. -/
def demoOmpOff : PState := { cursor := ['x'], flagOpenmp := false }

/-- Modelled from the spec: every sub-matcher of a sequence returns
`Yes`, threading the state left to right from `s` to `s2`. -/
inductive AllYes : List Pat → PState → PState → Prop where
  | nil (s : PState) : AllYes [] s s
  | cons {p : Pat} {ps : List Pat} {s s1 s2 : PState} {c : Bool}
      (h : runP p s = (.yes, c, s1)) (t : AllYes ps s1 s2) : AllYes (p :: ps) s s2

/-- Modelled from the spec: in a sequence, some sub-matcher returns `No`
after a prefix of `Yes` results none of which passed a commit point. -/
inductive FirstNoU : List Pat → PState → Prop where
  | head {p : Pat} {ps : List Pat} {s : PState} {b : Bool} {s' : PState}
      (h : runP p s = (.no, b, s')) : FirstNoU (p :: ps) s
  | step {p : Pat} {ps : List Pat} {s s1 : PState}
      (h : runP p s = (.yes, false, s1)) (t : FirstNoU ps s1) : FirstNoU (p :: ps) s

/-- Modelled from the spec: in a sequence, some sub-matcher returns
`Error` after a prefix of `Yes` results. -/
inductive FirstErr : List Pat → PState → Prop where
  | head {p : Pat} {ps : List Pat} {s : PState} {c : Bool} {s' : PState}
      (h : runP p s = (.error, c, s')) : FirstErr (p :: ps) s
  | step {p : Pat} {ps : List Pat} {s s1 : PState} {c : Bool}
      (h : runP p s = (.yes, c, s1)) (t : FirstErr ps s1) : FirstErr (p :: ps) s

theorem setFlag_getFlag (f : FlagId) (s : PState) : setFlag f (getFlag f s) s = s := by
  cases f <;> rfl

theorem setFlag_setFlag (f : FlagId) (u v : Bool) (s : PState) :
    setFlag f u (setFlag f v s) = setFlag f u s := by
  cases f <;> rfl

/-- A recognizer that returns `No` reports no commit and returns the
entry state unchanged. -/
theorem runP_no (p : Pat) : ∀ s b s', runP p s = (.no, b, s') → b = false ∧ s' = s := by
  induction p with
  | lit ch =>
    intro s b s' h
    simp only [runP] at h
    rcases hc : (skipSpace s).cursor with _ | ⟨c, rest⟩ <;> rw [hc] at h <;> dsimp only at h
    · simp_all
    · split at h <;> simp_all
  | space =>
    intro s b s' h
    simp only [runP] at h
    simp_all
  | name =>
    intro s b s' h
    simp only [runP] at h
    rcases hc : (skipSpace s).cursor with _ | ⟨c, rest⟩ <;> rw [hc] at h <;> dsimp only at h
    · simp_all
    · split at h <;> simp_all
  | eos =>
    intro s b s' h
    simp only [runP] at h
    split at h <;> simp_all
  | commit =>
    intro s b s' h
    simp only [runP] at h
    simp_all
  | openBlock bl =>
    intro s b s' h
    simp only [runP] at h
    simp_all
  | withFlag f v p ih =>
    intro s b s' h
    simp only [runP] at h
    rcases hp : runP p (setFlag f v s) with ⟨o, c, s1⟩
    rw [hp] at h
    dsimp only at h
    cases o with
    | no =>
      obtain ⟨hcf, hs⟩ := ih (setFlag f v s) c s1 hp
      simp only [Prod.mk.injEq] at h
      refine ⟨h.2.1 ▸ hcf, ?_⟩
      rw [← h.2.2, hs, setFlag_setFlag, setFlag_getFlag]
    | yes => simp_all
    | error => simp_all
  | opt p ih =>
    intro s b s' h
    simp only [runP] at h
    rcases hp : runP p s with ⟨o, c, s1⟩
    rw [hp] at h
    cases o <;> simp_all
  | seq p q ihp ihq =>
    intro s b s' h
    simp only [runP] at h
    rcases hp : runP p s with ⟨o, c, s1⟩
    rw [hp] at h
    cases o with
    | no => simp_all
    | error => simp_all
    | yes =>
      dsimp only at h
      rcases hq : runP q s1 with ⟨o2, c2, s2⟩
      rw [hq] at h
      cases o2 with
      | no =>
        dsimp only at h
        split at h <;> simp_all
      | error => simp_all
      | yes => simp_all
  | choice p q ihp ihq =>
    intro s b s' h
    simp only [runP] at h
    rcases hp : runP p s with ⟨o, c, s1⟩
    rw [hp] at h
    cases o with
    | no => exact ihq s b s' h
    | error =>
      dsimp only at h
      injection h with h1 h2
      cases h1
    | yes =>
      dsimp only at h
      injection h with h1 h2
      cases h1

theorem label_setFlag (f : FlagId) (v : Bool) (s : PState) :
    (setFlag f v s).label = s.label := by
  cases f <;> rfl

/-- Every recognizer leaves the three mode flags at their pre-call
values, on every outcome. -/
theorem runP_flag (p : Pat) : ∀ s f, getFlag f ((runP p s).2.2) = getFlag f s := by
  induction p with
  | lit ch =>
    intro s f
    simp only [runP]
    rcases hc : (skipSpace s).cursor with _ | ⟨c, rest⟩
    · rfl
    · dsimp only
      split <;> cases f <;> simp [getFlag, skipSpace]
  | space =>
    intro s f
    cases f <;> simp [runP, getFlag, skipSpace]
  | name =>
    intro s f
    simp only [runP]
    rcases hc : (skipSpace s).cursor with _ | ⟨c, rest⟩
    · rfl
    · dsimp only
      split <;> cases f <;> simp [getFlag, skipSpace]
  | eos =>
    intro s f
    simp only [runP]
    split <;> rfl
  | commit => intro s f; rfl
  | openBlock bl =>
    intro s f
    cases f <;> rfl
  | withFlag f v p ih =>
    intro s g
    simp only [runP]
    rcases hp : runP p (setFlag f v s) with ⟨o, c, s1⟩
    have h1 := ih (setFlag f v s) g
    rw [hp] at h1
    dsimp only
    cases f <;> cases g <;> simp_all [getFlag, setFlag]
  | opt p ih =>
    intro s f
    simp only [runP]
    rcases hp : runP p s with ⟨o, c, s1⟩
    have h1 := ih s f
    rw [hp] at h1
    cases o <;> dsimp only <;> simp_all
  | seq p q ihp ihq =>
    intro s f
    simp only [runP]
    rcases hp : runP p s with ⟨o, c, s1⟩
    have h1 := ihp s f
    rw [hp] at h1
    cases o with
    | no => rfl
    | error => exact h1
    | yes =>
      dsimp only
      rcases hq : runP q s1 with ⟨o2, c2, s2⟩
      have h2 := ihq s1 f
      rw [hq] at h2
      cases o2 with
      | no =>
        dsimp only
        split
        · cases f <;> simp_all [getFlag, recover]
        · rfl
      | error => dsimp only at h2 ⊢; rw [h2]; exact h1
      | yes => dsimp only at h2 ⊢; rw [h2]; exact h1
  | choice p q ihp ihq =>
    intro s f
    simp only [runP]
    rcases hp : runP p s with ⟨o, c, s1⟩
    have h1 := ihp s f
    rw [hp] at h1
    cases o with
    | no => exact ihq s f
    | error => exact h1
    | yes => exact h1

/-- No recognizer writes the statement-label slot: the slot is owned by
the dispatcher. -/
theorem runP_label (p : Pat) : ∀ s, ((runP p s).2.2).label = s.label := by
  induction p with
  | lit ch =>
    intro s
    simp only [runP]
    rcases hc : (skipSpace s).cursor with _ | ⟨c, rest⟩
    · rfl
    · dsimp only
      split <;> simp [skipSpace]
  | space => intro s; simp [runP, skipSpace]
  | name =>
    intro s
    simp only [runP]
    rcases hc : (skipSpace s).cursor with _ | ⟨c, rest⟩
    · rfl
    · dsimp only
      split <;> simp [skipSpace]
  | eos =>
    intro s
    simp only [runP]
    split <;> rfl
  | commit => intro s; rfl
  | openBlock bl => intro s; rfl
  | withFlag f v p ih =>
    intro s
    simp only [runP]
    rcases hp : runP p (setFlag f v s) with ⟨o, c, s1⟩
    have h1 := ih (setFlag f v s)
    rw [hp] at h1
    dsimp only at h1 ⊢
    rw [label_setFlag, h1, label_setFlag]
  | opt p ih =>
    intro s
    simp only [runP]
    rcases hp : runP p s with ⟨o, c, s1⟩
    have h1 := ih s
    rw [hp] at h1
    cases o <;> dsimp only <;> simp_all
  | seq p q ihp ihq =>
    intro s
    simp only [runP]
    rcases hp : runP p s with ⟨o, c, s1⟩
    have h1 := ihp s
    rw [hp] at h1
    cases o with
    | no => rfl
    | error => exact h1
    | yes =>
      dsimp only
      rcases hq : runP q s1 with ⟨o2, c2, s2⟩
      have h2 := ihq s1
      rw [hq] at h2
      cases o2 with
      | no =>
        dsimp only
        split
        · simp only [recover]; exact h1
        · rfl
      | error => dsimp only at h2 ⊢; rw [h2]; exact h1
      | yes => dsimp only at h2 ⊢; rw [h2]; exact h1
  | choice p q ihp ihq =>
    intro s
    simp only [runP]
    rcases hp : runP p s with ⟨o, c, s1⟩
    have h1 := ihp s
    rw [hp] at h1
    cases o with
    | no => exact ihq s
    | error => exact h1
    | yes => exact h1

/-- Ordered choice leaves the statement-label slot unchanged. -/
theorem runChoice_label (ps : List Pat) : ∀ s, ((runChoice ps s).2.2).label = s.label := by
  induction ps with
  | nil => intro s; rfl
  | cons p rest ih =>
    intro s
    simp only [runChoice]
    split
    · exact ih s
    · exact runP_label p s

/-- Once the commit flag is set, the sequence combinator never returns
`No`. -/
theorem runSeqList_committed (ps : List Pat) :
    ∀ entry s, ((runSeqList ps entry true s).1) ≠ Outcome.no := by
  induction ps with
  | nil => intro entry s; simp [runSeqList]
  | cons p rest ih =>
    intro entry s
    simp only [runSeqList]
    rcases hp : runP p s with ⟨o, c, s1⟩
    cases o with
    | no => simp
    | error => simp
    | yes => simpa using ih entry s1

/-- An all-`Yes` run of the sub-matchers makes the sequence combinator
return `Yes` with the threaded final state, whatever the entry
checkpoint and incoming commit flag. -/
theorem allYes_runSeqList {ps : List Pat} {s s2 : PState} (h : AllYes ps s s2) :
    ∀ entry c, ∃ c', runSeqList ps entry c s = (.yes, c', s2) := by
  induction h with
  | nil s => exact fun _ c => ⟨c, rfl⟩
  | cons hp t ih =>
    intro entry c
    simp only [runSeqList, hp]
    exact ih entry _

/-- If the sequence combinator returns `Yes` then every sub-matcher
returned `Yes`. -/
theorem runSeqList_yes_allYes : ∀ (ps : List Pat) (entry : PState) (c : Bool) (s : PState),
    (runSeqList ps entry c s).1 = .yes → ∃ s2, AllYes ps s s2 := by
  intro ps
  induction ps with
  | nil => exact fun _ _ s _ => ⟨s, .nil s⟩
  | cons p rest ih =>
    intro entry c s h
    simp only [runSeqList] at h
    rcases hp : runP p s with ⟨o, cp, s1⟩
    rw [hp] at h
    cases o with
    | no => dsimp only at h; split at h <;> simp_all
    | error => simp_all
    | yes =>
      dsimp only at h
      obtain ⟨s2, t⟩ := ih entry (c || cp) s1 h
      exact ⟨s2, .cons hp t⟩

/-- A first `No` with no commit passed makes the sequence combinator
return `No` with the entry checkpoint restored. -/
theorem firstNoU_runSeqList {ps : List Pat} {s : PState} (h : FirstNoU ps s) :
    ∀ entry, runSeqList ps entry false s = (.no, false, entry) := by
  induction h with
  | head hp => intro entry; simp [runSeqList, hp]
  | step hp t ih =>
    intro entry
    simp only [runSeqList, hp]
    exact ih entry

/-- A first `Error` makes the sequence combinator return `Error`,
whatever the entry checkpoint and incoming commit flag. -/
theorem firstErr_runSeqList {ps : List Pat} {s : PState} (h : FirstErr ps s) :
    ∀ entry c, (runSeqList ps entry c s).1 = .error := by
  induction h with
  | head hp => intro entry c; simp [runSeqList, hp]
  | step hp t ih =>
    intro entry c
    simp only [runSeqList, hp]
    exact ih entry _

/-- Claim C1: for every recognizer and every input state, a `No` return
leaves the cursor byte-for-byte equal to its entry value, writes no
out-parameter slot and emits no AST node. -/
theorem rewind_on_no (p : Pat) (s : PState) (b : Bool) (s' : PState)
    (h : runP p s = (.no, b, s')) :
    s'.cursor = s.cursor ∧ s'.outs = s.outs ∧ s'.ast = s.ast := by
  obtain ⟨-, hs⟩ := runP_no p s b s' h
  subst hs
  exact ⟨rfl, rfl, rfl⟩

theorem rewind_on_no_witness :
    demoQ.cursor = demoQ.cursor ∧ demoQ.outs = demoQ.outs ∧ demoQ.ast = demoQ.ast :=
  rewind_on_no (.lit 'z') demoQ false demoQ (by decide)

/-- Claim C2: once a commit point has been passed inside a recognizer,
the outcome is `Yes` or `Error`, never `No`: a recognizer run that
reports its commit flag set did not return `No`, and the sequence
combinator continued past a commit never returns `No`. -/
theorem commit_never_no :
    (∀ (p : Pat) (s : PState) (o : Outcome) (s' : PState),
        runP p s = (o, true, s') → o ≠ .no) ∧
    (∀ (ps : List Pat) (entry s : PState), ((runSeqList ps entry true s).1) ≠ .no) := by
  constructor
  · intro p s o s' h hno
    subst hno
    exact absurd (runP_no p s true s' h).1 (by simp)
  · exact fun ps entry s => runSeqList_committed ps entry s

theorem commit_never_no_witness :
    runP (Pat.seq .commit (.lit 'x')) demoQ
        = (.error, true, { cursor := [], diags := 1 }) ∧ (Outcome.error ≠ .no) :=
  ⟨by decide, commit_never_no.1 (Pat.seq .commit (.lit 'x')) demoQ .error
      { cursor := [], diags := 1 } (by decide)⟩

/-- Claim C3: the sequence combinator evaluates its sub-matchers left to
right: it returns `Yes` iff every sub-matcher returns `Yes`; if the
first non-`Yes` sub-matcher returns `No` (no commit having been passed
before it), the sequence returns `No` with the cursor restored to the
sequence's entry checkpoint; if the first non-`Yes` sub-matcher returns
`Error`, the sequence returns `Error`. -/
theorem seq_combinator_spec (ps : List Pat) (s : PState) :
    ((seqList ps s).1 = .yes ↔ ∃ s2, AllYes ps s s2) ∧
    (FirstNoU ps s → seqList ps s = (.no, false, s)) ∧
    (FirstErr ps s → (seqList ps s).1 = .error) := by
  refine ⟨⟨fun h => runSeqList_yes_allYes ps s false s h, ?_⟩, ?_, ?_⟩
  · rintro ⟨s2, hy⟩
    obtain ⟨c', hc⟩ := allYes_runSeqList hy s false
    simp [seqList, hc]
  · exact fun h => firstNoU_runSeqList h s
  · exact fun h => firstErr_runSeqList h s false

theorem seq_combinator_spec_witness :
    FirstNoU [Pat.lit 'x'] demoQ ∧ seqList [Pat.lit 'x'] demoQ = (.no, false, demoQ) := by
  have hf : FirstNoU [Pat.lit 'x'] demoQ :=
    @FirstNoU.head (Pat.lit 'x') [] demoQ false demoQ (by decide)
  exact ⟨hf, (seq_combinator_spec [Pat.lit 'x'] demoQ).2.1 hf⟩

/-- Claim C4: ordered choice -- the loop the statement dispatcher is
built on -- tries the alternatives in listed order: a head returning
`No` is skipped, and the first alternative not returning `No` (whether
`Yes` or `Error`) becomes the overall result, so no later alternative is
tried after a `Yes` or an `Error`. -/
theorem choice_first_non_no_wins (p : Pat) (ps : List Pat) (s : PState) :
    ((runP p s).1 = .no → runChoice (p :: ps) s = runChoice ps s) ∧
    ((runP p s).1 ≠ .no → runChoice (p :: ps) s = runP p s) := by
  constructor
  · intro h; simp [runChoice, h]
  · intro h; simp [runChoice, h]

theorem choice_first_non_no_wins_witness :
    (runP (Pat.lit 'x') demoQ).1 = .no ∧
      runChoice [Pat.lit 'x', Pat.lit 'q'] demoQ = runChoice [Pat.lit 'q'] demoQ :=
  ⟨by decide, (choice_first_non_no_wins (Pat.lit 'x') [Pat.lit 'q'] demoQ).1 (by decide)⟩

/-- Claim C5: after any recognizer returns -- on every outcome,
including `No` -- the mode flags gfc_matching_ptr_assignment,
gfc_matching_procptr_assignment and gfc_matching_prefix equal their
pre-call values. -/
theorem mode_flags_restored (p : Pat) (s : PState) :
    ((runP p s).2.2).ptrAssign = s.ptrAssign ∧
    ((runP p s).2.2).procPtrAssign = s.procPtrAssign ∧
    ((runP p s).2.2).prefixFlag = s.prefixFlag :=
  ⟨runP_flag p s .ptrAssign, runP_flag p s .procPtrAssign, runP_flag p s .prefixFlag⟩

/-- Claim C7: when a directive family's language toggle is disabled, the
directive dispatcher returns `No` unconditionally: no candidate is
consulted, no commit happens, no diagnostic is emitted and no input is
consumed (the state comes back unchanged). -/
theorem directive_toggle_no (lang : DirLang) (cands : List Pat) (s : PState)
    (h : langEnabled lang s = false) :
    dispatchDirective lang cands s = (.no, false, s) := by
  simp [dispatchDirective, h]

theorem directive_toggle_no_witness :
    langEnabled .omp demoOmpOff = false ∧
      dispatchDirective .omp [Pat.lit 'x'] demoOmpOff = (.no, false, demoOmpOff) :=
  ⟨by decide, directive_toggle_no .omp [Pat.lit 'x'] demoOmpOff (by decide)⟩

theorem dropWhile_self_idem (p : Char → Bool) (l : List Char) :
    (l.dropWhile p).dropWhile p = l.dropWhile p := by
  induction l with
  | nil => rfl
  | cons c l ih =>
    by_cases h : p c
    · simp [List.dropWhile_cons, h, ih]
    · simp [List.dropWhile_cons, h]

theorem head?_dropWhile_false (p : Char → Bool) (l : List Char) :
    ∀ c, (l.dropWhile p).head? = some c → p c = false := by
  induction l with
  | nil => intro c h; simp at h
  | cons a l ih =>
    intro c h
    rw [List.dropWhile_cons] at h
    by_cases ha : p a
    · rw [if_pos ha] at h
      exact ih c h
    · rw [if_neg ha] at h
      simp only [List.head?_cons, Option.some.injEq] at h
      subst h
      simpa using ha

/-- Claim C8: matchSpace returns `Yes` on every input, consumes exactly
the run of horizontal whitespace at the cursor (the consumed prefix is
all whitespace and the remaining head is not whitespace), and is
idempotent: an immediate second run consumes nothing and leaves the
cursor unchanged. -/
theorem match_space_spec (s : PState) :
    (runP .space s).1 = .yes ∧
    (runP .space s).2.2 = skipSpace s ∧
    s.cursor = s.cursor.takeWhile isHSpace ++ ((runP .space s).2.2).cursor ∧
    (∀ c ∈ s.cursor.takeWhile isHSpace, isHSpace c = true) ∧
    (∀ c, ((runP .space s).2.2).cursor.head? = some c → isHSpace c = false) ∧
    runP .space ((runP .space s).2.2) = runP .space s := by
  refine ⟨rfl, rfl, ?_, ?_, ?_, ?_⟩
  · exact (List.takeWhile_append_dropWhile (p := isHSpace) (l := s.cursor)).symm
  · intro c hc
    exact List.mem_takeWhile_imp hc
  · intro c h
    exact head?_dropWhile_false isHSpace s.cursor c h
  · show runP .space (skipSpace s) = runP .space s
    simp [runP, skipSpace, dropWhile_self_idem]

theorem match_space_spec_witness :
    isHSpace 'x' = false ∧
      runP .space ((runP .space demoSpaceX).2.2) = runP .space demoSpaceX :=
  ⟨(match_space_spec demoSpaceX).2.2.2.2.1 'x' (by decide),
   (match_space_spec demoSpaceX).2.2.2.2.2⟩

/-- Claim C6: when the dispatched statement is prefixed by a (nonzero)
statement label L, a `Yes` dispatch produces a statement whose label
field equals L and clears the currentStatementLabel slot; and when the
winning recognizer set the newBlock slot, the dispatcher pushes that
block onto the block stack and clears the slot. -/
theorem dispatch_label_attach (cands : List Pat) (s : PState) (st : Stmt) (s' : PState)
    (L : Nat) (hL : labelVal s.cursor = L) (h0 : L ≠ 0)
    (hd : dispatch cands s = (.yes, some st, s')) :
    st.label = L ∧ s'.label = 0 ∧ s'.newBlock = none ∧
    (∀ b, ((runChoice cands (takeLabel s)).2.2).newBlock = some b →
        s'.blocks = b :: ((runChoice cands (takeLabel s)).2.2).blocks) := by
  have hne : labelVal s.cursor ≠ 0 := by rw [hL]; exact h0
  have hlab : (takeLabel s).label = L := by
    simp only [takeLabel]
    rw [if_neg hne]
    exact hL
  have hchl := runChoice_label cands (takeLabel s)
  simp only [dispatch] at hd
  rcases hr : runChoice cands (takeLabel s) with ⟨o, c, s2⟩
  rw [hr] at hd hchl
  cases o with
  | no => exact Outcome.noConfusion (congrArg Prod.fst hd)
  | error => exact Outcome.noConfusion (congrArg Prod.fst hd)
  | yes =>
    dsimp only at hchl ⊢
    injection hd with h1 h2
    injection h2 with hst hs'
    injection hst with hst
    refine ⟨?_, ?_, ?_, ?_⟩
    · rw [← hst]
      show s2.label = L
      rw [hchl]
      exact hlab
    · rw [← hs']
    · rw [← hs']
    · intro b hb
      rw [← hs']
      dsimp only
      rw [hb]

theorem dispatch_label_attach_witness :
    labelVal demoLabeled.cursor = 100 ∧
      dispatch [Pat.lit 'x'] demoLabeled
        = (.yes, some { label := 100 }, { cursor := [], ast := [{ label := 100 }] }) ∧
      ({ label := 100 } : Stmt).label = 100 := by
  refine ⟨by decide, by decide, ?_⟩
  exact (dispatch_label_attach [Pat.lit 'x'] demoLabeled { label := 100 }
      { cursor := [], ast := [{ label := 100 }] } 100 (by decide) (by decide) (by decide)).1

/-- Claim C9: among the match-returning declarations of match.h, exactly
the recognizers for IF, WHERE, FORALL, END, PRIVATE and PUBLIC carry a
gfc_statement out-parameter (each as its only parameter), so a single
recognizer classifies among several statement kinds through that slot
rather than one recognizer existing per kind. -/
theorem stmt_out_param_decls :
    (("gfc_match_if", [CType.stmtPtr]) ∈ matchDecls ∧
     ("gfc_match_where", [CType.stmtPtr]) ∈ matchDecls ∧
     ("gfc_match_forall", [CType.stmtPtr]) ∈ matchDecls ∧
     ("gfc_match_end", [CType.stmtPtr]) ∈ matchDecls ∧
     ("gfc_match_private", [CType.stmtPtr]) ∈ matchDecls ∧
     ("gfc_match_public", [CType.stmtPtr]) ∈ matchDecls) ∧
    (matchDecls.filter (fun d => d.2.contains CType.stmtPtr)).map Prod.fst
      = ["gfc_match_if", "gfc_match_where", "gfc_match_forall",
         "gfc_match_end", "gfc_match_private", "gfc_match_public"] := by
  decide

/-- Claim C10: absence of a current statement label is encoded as the
zero value of the gfc_statement_label slot; the slot lives outside the
statement record under construction, so wiping that record during
backtracking preserves it; matching a valid label fills it with the
(nonzero) value while recognizers themselves never write it; and it is
cleared exactly when a dispatched statement absorbs it. -/
theorem label_slot_spec :
    (∀ s : PState, (wipeNewSt s).label = s.label) ∧
    (∀ s : PState, labelVal s.cursor ≠ 0 → (takeLabel s).label = labelVal s.cursor) ∧
    (∀ s : PState, labelVal s.cursor = 0 → (takeLabel s).label = s.label) ∧
    (∀ (p : Pat) (s : PState), ((runP p s).2.2).label = s.label) ∧
    (∀ (cands : List Pat) (s : PState) (st : Stmt) (s' : PState),
        dispatch cands s = (.yes, some st, s') → s'.label = 0) := by
  refine ⟨fun s => rfl, ?_, ?_, runP_label, ?_⟩
  · intro s h
    simp only [takeLabel]
    rw [if_neg h]
  · intro s h
    simp [takeLabel, h]
  · intro cands s st s' hd
    simp only [dispatch] at hd
    rcases hr : runChoice cands (takeLabel s) with ⟨o, c, s2⟩
    rw [hr] at hd
    cases o with
    | no => exact Outcome.noConfusion (congrArg Prod.fst hd)
    | error => exact Outcome.noConfusion (congrArg Prod.fst hd)
    | yes =>
      injection hd with h1 h2
      injection h2 with hst hs'
      rw [← hs']

theorem label_slot_spec_witness :
    labelVal demoLabeled.cursor ≠ 0 ∧
      (takeLabel demoLabeled).label = labelVal demoLabeled.cursor :=
  ⟨by decide, label_slot_spec.2.1 demoLabeled (by decide)⟩

end GfcMatch
